import Mathlib

/-!
# redisotel (go-redis v8 metrics instrumentation): embedding of `metrics.go`

The development follows `src/metrics.go`:

* Go slices of `attribute.KeyValue` are slice headers (backing array, length,
  capacity) over an explicit heap of backing arrays, with the `append`
  semantics of the Go language specification (write in place when the
  capacity suffices, otherwise copy into a fresh array);
* the logger, the latency histogram, the meter, the global error handler and
  the hooks installed on clients are components of an explicit `World`;
* a Go panic is the `Except.error` result.
-/

namespace Redisotel

/-! ## Attributes, slices and the heap of backing arrays -/

/-- An `attribute.KeyValue` with a string value. -/
structure KeyValue where
  key : String
  value : String
deriving DecidableEq, Repr

/-- The Go call `attribute.String(k, v)`. -/
def attributeString (k v : String) : KeyValue := ⟨k, v⟩

/-- The zero value of `attribute.KeyValue`, the content of a fresh array cell. -/
def KeyValue.zero : KeyValue := ⟨"", ""⟩

/-- A Go slice header for `[]attribute.KeyValue`: backing array, length, capacity. -/
structure Slice where
  arr : Nat
  len : Nat
  cap : Nat
deriving DecidableEq, Repr

/-- The heap of backing arrays: `mem a i` is cell `i` of array `a`, `next` is the
first array identifier not yet allocated, and `grow oldCap needed` is the
capacity the runtime picks when `append` has to reallocate (the language
specification only requires the new array to be large enough, which `goAppend`
enforces with a `max`). -/
structure Heap where
  mem : Nat → Nat → KeyValue
  next : Nat
  grow : Nat → Nat → Nat

/-- The elements of a slice, read from its backing array. -/
def Heap.read (h : Heap) (s : Slice) : List KeyValue :=
  (List.range s.len).map (h.mem s.arr)

/-- The Go call `make([]attribute.KeyValue, 0, n)`: a fresh zeroed array. -/
def goMake (h : Heap) (n : Nat) : Heap × Slice :=
  ({ h with
      mem := fun a i => if a = h.next then KeyValue.zero else h.mem a i
      next := h.next + 1 },
   ⟨h.next, 0, n⟩)

/-- The Go call `append(s, xs...)`. When `len(s) + len(xs) <= cap(s)` the values
are written into the backing array of `s` after its last element and the result
shares that array; otherwise a fresh array receives the elements of `s`
followed by `xs`. -/
def goAppend (h : Heap) (s : Slice) (xs : List KeyValue) : Heap × Slice :=
  if s.len + xs.length ≤ s.cap then
    ({ h with
        mem := fun a i =>
          if a = s.arr ∧ s.len ≤ i ∧ i < s.len + xs.length then
            xs.getD (i - s.len) KeyValue.zero
          else h.mem a i },
     { s with len := s.len + xs.length })
  else
    ({ h with
        mem := fun a i =>
          if a = h.next then
            (if i < s.len then h.mem s.arr i else xs.getD (i - s.len) KeyValue.zero)
          else h.mem a i
        next := h.next + 1 },
     ⟨h.next, s.len + xs.length, max (s.len + xs.length) (h.grow s.cap (s.len + xs.length))⟩)

/-! ## Errors, commands, log entries -/

/-- A non-nil Go `error` value: the sentinel `redis.Nil` or any other error. -/
inductive GoError where
  | redisNil
  | other (msg : String)
deriving DecidableEq, Repr

/-- A `redis.Cmder` as the hook sees it: `cmd.Err()` (`none` is `nil`) and
`cmd.String()`. -/
structure Cmder where
  err : Option GoError
  text : String
deriving DecidableEq, Repr

/-- Log levels of the zap logger used by the hook. -/
inductive Level where
  | error
  | warn
deriving DecidableEq, Repr

/-- A zap field: `zap.String(key, s)` or `zap.Duration(key, d)`. -/
inductive Field where
  | string (key : String) (s : String)
  | duration (key : String) (d : Int)
deriving DecidableEq, Repr

/-- One entry written through `mh.logger`. -/
structure LogEntry where
  level : Level
  msg : String
  fields : List Field
deriving DecidableEq, Repr

/-- One call `useTime.Record(ctx, value, attrs...)`, or one call
`Observe(ctx, value, attrs...)` on an asynchronous instrument; `attrs` are the
elements of the slice at the time of the call. -/
structure Observation where
  instrument : String
  value : Int
  attrs : List KeyValue
deriving DecidableEq, Repr

/-- A Go run-time panic. -/
inductive Panic where
  | indexOutOfRange (index : Nat) (length : Nat)
  | nilDereference
deriving DecidableEq, Repr

/-! ## The command hook -/

/-- The `metricsHook` struct: the name of its `useTime` histogram, its attribute
slice and the slow threshold in nanoseconds (the logger is the global one kept
in the world). -/
structure metricsHook where
  useTime : String
  attrs : Slice
  slowDuration : Int
deriving DecidableEq, Repr

/-- What the hook acts on: the heap, the log and the recorded observations. -/
structure HookWorld where
  heap : Heap
  logs : List LogEntry
  records : List Observation

/-- The Go function `statusOkAttr`. -/
def statusOkAttr (err : Option GoError) : KeyValue × Bool :=
  if err ≠ none ∧ err ≠ some GoError.redisNil then
    (attributeString "status" "error", false)
  else
    (attributeString "status" "ok", true)

/-- The Go method `time.Duration.Milliseconds`: integer division truncating
toward zero. -/
def durMilliseconds (d : Int) : Int := Int.tdiv d 1000000

/-- The Go method `metricsHook.AfterProcess`. `ctx` is the value stored under
`startKey` when it is a `time.Time` (`none` otherwise) and `since` is
`time.Since`. The result is the new world and the returned `error`. -/
def AfterProcess (mh : metricsHook) (since : Int → Int) (w : HookWorld)
    (ctx : Option Int) (cmd : Cmder) : Except Panic (HookWorld × Option GoError) :=
  match ctx with
  | some start =>
    let dur := since start
    let a0 := goMake w.heap (mh.attrs.len + 2)
    let a1 := goAppend a0.1 a0.2 (a0.1.read mh.attrs)
    let a2 := goAppend a1.1 a1.2 [attributeString "type" "command"]
    let st := statusOkAttr cmd.err
    let logs1 :=
      if !st.2 then
        w.logs ++ [⟨Level.error, "Command error", [Field.string "cmd" cmd.text]⟩]
      else w.logs
    let a3 := goAppend a2.1 a2.2 [st.1]
    let records1 := w.records ++ [⟨mh.useTime, durMilliseconds dur, a3.1.read a3.2⟩]
    let logs2 :=
      if dur ≥ mh.slowDuration then
        logs1 ++ [⟨Level.warn, "Command slow",
          [Field.duration "dur" dur, Field.string "cmd" cmd.text]⟩]
      else logs1
    .ok (⟨a3.1, logs2, records1⟩, none)
  | none => .ok (w, none)

/-- The Go method `metricsHook.AfterProcessPipeline`; `cmds[0]` panics on an
empty batch. -/
def AfterProcessPipeline (mh : metricsHook) (since : Int → Int) (w : HookWorld)
    (ctx : Option Int) (cmds : List Cmder) : Except Panic (HookWorld × Option GoError) :=
  match ctx with
  | some start =>
    let dur := since start
    let a0 := goMake w.heap (mh.attrs.len + 2)
    let a1 := goAppend a0.1 a0.2 (a0.1.read mh.attrs)
    let a2 := goAppend a1.1 a1.2 [attributeString "type" "pipeline"]
    match cmds[0]? with
    | none => .error (Panic.indexOutOfRange 0 cmds.length)
    | some firstCmd =>
      let st := statusOkAttr firstCmd.err
      let logs1 :=
        if !st.2 then
          w.logs ++ [⟨Level.error, "Pipeline error", [Field.string "cmd" firstCmd.text]⟩]
        else w.logs
      let a3 := goAppend a2.1 a2.2 [st.1]
      let logs2 :=
        if dur ≥ mh.slowDuration then
          logs1 ++ [⟨Level.warn, "Pipeline slow",
            [Field.duration "dur" dur, Field.string "cmd" firstCmd.text]⟩]
        else logs1
      let records1 := w.records ++ [⟨mh.useTime, durMilliseconds dur, a3.1.read a3.2⟩]
      .ok (⟨a3.1, logs2, records1⟩, none)
  | none => .ok (w, none)

/-- The number of entries of a given level in a log. -/
def countLevel (l : Level) (logs : List LogEntry) : Nat :=
  (logs.filter (fun e => e.level = l)).length

/-- The error-level entry of `AfterProcess` for a command, if its status is error. -/
def errorEntries (msg : String) (cmd : Cmder) : List LogEntry :=
  if (statusOkAttr cmd.err).2 then []
  else [⟨Level.error, msg, [Field.string "cmd" cmd.text]⟩]

/-- The warning-level entry of the hook, if the duration reaches the threshold. -/
def slowEntries (msg : String) (dur slow : Int) (cmd : Cmder) : List LogEntry :=
  if dur ≥ slow then
    [⟨Level.warn, msg, [Field.duration "dur" dur, Field.string "cmd" cmd.text]⟩]
  else []

/-! ## Pool statistics, the meter and the configuration -/

/-- The fields of `redis.Options` the instrumentation reads (`Addr`, and the
Go `int` fields `PoolSize` and `MinIdleConns`). -/
structure Options where
  Addr : String
  PoolSize : Int
  MinIdleConns : Int
deriving DecidableEq, Repr

/-- The fields of `redis.PoolStats` the callback reads; each is a `uint32`. -/
structure PoolStats where
  IdleConns : Nat
  TotalConns : Nat
  Timeouts : Nat
deriving DecidableEq, Repr

/-- A `*redis.Client`: `rdb.Options()` returns `opt`. -/
structure Client where
  opt : Options
deriving DecidableEq, Repr

/-- Subtraction of two `uint32` values, wrapping modulo `2^32`. -/
def uint32Sub (a b : Nat) : Nat := (a + 4294967296 - b) % 4294967296

/-- The meter as the instrumentation uses it. Each function gives the error
(`none` for success) of one call; its first argument is the number of calls
made on the meter before, so that the outcome may differ from call to call. -/
structure Meter where
  asyncUpDownCounter : Nat → String → Option GoError
  syncHistogram : Nat → String → Option GoError
  registerCallback : Nat → Option GoError

/-- Modelled from the spec: the `config` struct, declared in a file of the
package that is not among the sources. It holds the meter, the meter provider,
the attribute set, the explicit pool-identity label and the slow-operation
threshold; the fields are the ones `metrics.go` reads and writes. -/
structure config where
  meter : Option Meter
  mp : String → Meter
  attrs : Slice
  poolName : String
  slowDur : Int

/-- The variables captured by the callback of `reportPoolStats`. -/
structure PoolCallback where
  labels : Slice
  idleAttrs : Slice
  usedAttrs : Slice
  redisConf : Options
deriving DecidableEq, Repr

/-- One successful `RegisterCallback`: the instruments listed and the callback. -/
structure Registration where
  rdb : Client
  instruments : List String
  callback : PoolCallback
deriving DecidableEq, Repr

/-- What `InstrumentMetrics` acts on: the heap, the calls made on the meter (by
instrument name, in order), the registered callbacks, the hooks added to
clients and the errors given to `otel.Handle`. -/
structure World where
  heap : Heap
  meterCalls : List String
  callbacks : List Registration
  hooks : List (Client × metricsHook)
  handled : List GoError

/-- The constant `instrumName`. -/
def instrumName : String := "redisotel"

/-- The body of the callback registered by `reportPoolStats`, run on the heap
and the pool statistics of the time of the call: the `Observe` calls in order. -/
def PoolCallback.run (cb : PoolCallback) (h : Heap) (stats : PoolStats) : List Observation :=
  [ ⟨"db.client.connections.idle.min", cb.redisConf.MinIdleConns, h.read cb.labels⟩,
    ⟨"db.client.connections.max", cb.redisConf.PoolSize, h.read cb.labels⟩,
    ⟨"db.client.connections.usage", (stats.IdleConns : Int), h.read cb.idleAttrs⟩,
    ⟨"db.client.connections.usage", (uint32Sub stats.TotalConns stats.IdleConns : Int),
      h.read cb.usedAttrs⟩,
    ⟨"db.client.connections.timeouts", (stats.Timeouts : Int), h.read cb.labels⟩ ]

/-- One call `conf.meter.AsyncInt64().UpDownCounter(name, ...)`. -/
def newUpDownCounter (m : Meter) (w : World) (name : String) : World × Option GoError :=
  ({ w with meterCalls := w.meterCalls ++ [name] },
   m.asyncUpDownCounter w.meterCalls.length name)

/-- One call `conf.meter.SyncInt64().Histogram(name, ...)`. -/
def newHistogram (m : Meter) (w : World) (name : String) : World × Option GoError :=
  ({ w with meterCalls := w.meterCalls ++ [name] },
   m.syncHistogram w.meterCalls.length name)

/-- One call `conf.meter.RegisterCallback(instruments, callback)`. -/
def registerCallback (m : Meter) (w : World) (r : Registration) : World × Option GoError :=
  match m.registerCallback w.meterCalls.length with
  | some err => ({ w with meterCalls := w.meterCalls ++ ["RegisterCallback"] }, some err)
  | none =>
    ({ w with
        meterCalls := w.meterCalls ++ ["RegisterCallback"]
        callbacks := w.callbacks ++ [r] }, none)

/-- The Go function `reportPoolStats`. -/
def reportPoolStats (rdb : Client) (conf : config) (w : World) :
    Except Panic (World × Option GoError) :=
  let labels := conf.attrs
  let ai := goAppend w.heap labels [attributeString "state" "idle"]
  let idleAttrs := ai.2
  let au := goAppend ai.1 labels [attributeString "state" "used"]
  let usedAttrs := au.2
  let w0 : World := { w with heap := au.1 }
  match conf.meter with
  | none => .error Panic.nilDereference
  | some m =>
    let c1 := newUpDownCounter m w0 "db.client.connections.idle.max"
    match c1.2 with
    | some err => .ok (c1.1, some err)
    | none =>
    let c2 := newUpDownCounter m c1.1 "db.client.connections.idle.min"
    match c2.2 with
    | some err => .ok (c2.1, some err)
    | none =>
    let c3 := newUpDownCounter m c2.1 "db.client.connections.max"
    match c3.2 with
    | some err => .ok (c3.1, some err)
    | none =>
    let c4 := newUpDownCounter m c3.1 "db.client.connections.usage"
    match c4.2 with
    | some err => .ok (c4.1, some err)
    | none =>
    let c5 := newUpDownCounter m c4.1 "db.client.connections.timeouts"
    match c5.2 with
    | some err => .ok (c5.1, some err)
    | none =>
    let redisConf := rdb.opt
    .ok (registerCallback m c5.1
      ⟨rdb,
       [ "db.client.connections.idle.max", "db.client.connections.idle.min",
         "db.client.connections.max", "db.client.connections.usage",
         "db.client.connections.timeouts" ],
       ⟨labels, idleAttrs, usedAttrs, redisConf⟩⟩)

/-- The Go function `addMetricsHook`. -/
def addMetricsHook (rdb : Client) (conf : config) (w : World) :
    Except Panic (World × Option GoError) :=
  match conf.meter with
  | none => .error Panic.nilDereference
  | some m =>
    let c := newHistogram m w "db.client.connections.use_time"
    match c.2 with
    | some err => .ok (c.1, some err)
    | none =>
      .ok ({ c.1 with
              hooks := c.1.hooks ++
                [(rdb, ⟨"db.client.connections.use_time", conf.attrs, conf.slowDur⟩)] },
           none)

/-- The call `otel.Handle(err)` guarded by `err != nil`. -/
def handleIfErr (w : World) (err : Option GoError) : World :=
  match err with
  | some e => { w with handled := w.handled ++ [e] }
  | none => w

/-- The first statements of the function literal of the cluster and ring cases:
the copy of the configuration (`*confCopy = *conf` copies the slice header of
`attrs`), the pool name and the `append` of the `pool.name` attribute. -/
def nodeConfig (conf : config) (rdb : Client) (w : World) : World × config :=
  let confCopy := conf
  let confCopy :=
    if confCopy.poolName = "" then { confCopy with poolName := rdb.opt.Addr } else confCopy
  let a := goAppend w.heap confCopy.attrs [attributeString "pool.name" confCopy.poolName]
  ({ w with heap := a.1 }, { confCopy with attrs := a.2 })

/-- The function literal passed to `ForEachMaster` and, with the same text, to
`ForEachShard`. -/
def fanoutFn (conf : config) (rdb : Client) (w : World) :
    Except Panic (World × Option GoError) :=
  let nc := nodeConfig conf rdb w
  match reportPoolStats rdb nc.2 nc.1 with
  | .error p => .error p
  | .ok r1 =>
    match addMetricsHook rdb nc.2 (handleIfErr r1.1 r1.2) with
    | .error p => .error p
    | .ok r2 => .ok (handleIfErr r2.1 r2.2, none)

/-- The methods `ClusterClient.ForEachMaster` and `Ring.ForEachShard` of
go-redis: `fn` is called on every node and the first non-nil error is returned.
The library runs the calls in goroutines; this is the schedule in which they
run one after the other in list order. -/
def forEachNode (fn : Client → World → Except Panic (World × Option GoError)) :
    List Client → World → Except Panic (World × Option GoError)
  | [], w => .ok (w, none)
  | c :: cs, w =>
    match fn c w with
    | .error p => .error p
    | .ok r1 =>
      match forEachNode fn cs r1.1 with
      | .error p => .error p
      | .ok r2 => .ok (r2.1, r1.2 <|> r2.2)

/-- The dynamic type of the `redis.UniversalClient` given to `InstrumentMetrics`. -/
inductive UniversalClient where
  | client (rdb : Client)
  | cluster (masters : List Client)
  | ring (shards : List Client)
  | unsupported (typeName : String)

/-- The Go function `InstrumentMetrics`, from the configuration `newConfig`
returns for the options. -/
def InstrumentMetrics (rdb : UniversalClient) (conf : config) (w : World) :
    Except Panic (World × Option GoError) :=
  let conf := if conf.meter.isNone then { conf with meter := some (conf.mp instrumName) } else conf
  let conf := if conf.slowDur = 0 then { conf with slowDur := 1000000000 } else conf
  match rdb with
  | .client rdb =>
    let conf := if conf.poolName = "" then { conf with poolName := rdb.opt.Addr } else conf
    let a := goAppend w.heap conf.attrs [attributeString "pool.name" conf.poolName]
    let conf := { conf with attrs := a.2 }
    match reportPoolStats rdb conf { w with heap := a.1 } with
    | .error p => .error p
    | .ok (w1, some err) => .ok (w1, some err)
    | .ok (w1, none) =>
      match addMetricsHook rdb conf w1 with
      | .error p => .error p
      | .ok (w2, some err) => .ok (w2, some err)
      | .ok (w2, none) => .ok (w2, none)
  | .cluster masters => forEachNode (fanoutFn conf) masters w
  | .ring shards => forEachNode (fanoutFn conf) shards w
  | .unsupported typeName =>
    .ok (w, some (GoError.other ("redisotel: " ++ typeName ++ " not supported")))

/-! ## Concrete inputs -/

/-- A heap holding the given backing arrays (array `a` is the `a`-th list; a cell
beyond the list is zero). -/
def heapOf (arrays : List (List KeyValue)) (grow : Nat → Nat → Nat) : Heap :=
  ⟨fun a i => (arrays.getD a []).getD i KeyValue.zero, arrays.length, grow⟩

/-- The growth of small slices in the Go runtime: the capacity doubles. -/
def doubling (oldCap : Nat) (_needed : Nat) : Nat := 2 * oldCap

/-- A meter on which every call succeeds. -/
def okMeter : Meter := ⟨fun _ _ => none, fun _ _ => none, fun _ => none⟩

/-- A meter on which every instrument creation fails. -/
def failingMeter : Meter :=
  ⟨fun _ name => some (GoError.other name), fun _ name => some (GoError.other name),
   fun _ => none⟩

/-- The usage observations of a callback run: value and labels, in order. -/
def usageObservations (obs : List Observation) : List (Int × List KeyValue) :=
  (obs.filter (fun o => o.instrument = "db.client.connections.usage")).map
    (fun o => (o.value, o.attrs))

/-- A world with one backing array of four cells, `env=prod`, `app=shop`,
`region=eu` and one spare cell, and nothing else. -/
def spareWorld : World :=
  ⟨heapOf [[⟨"env", "prod"⟩, ⟨"app", "shop"⟩, ⟨"region", "eu"⟩]] doubling, [], [], [], []⟩

/-- A configuration whose attribute slice has length 3 and capacity 4 in the
array of `spareWorld`, as left by three single appends to an empty slice under
doubling. -/
def spareConf (poolName : String) : config :=
  ⟨some okMeter, fun _ => okMeter, ⟨0, 3, 4⟩, poolName, 0⟩

/-- A world with one backing array of two cells, `env=prod` and `app=shop`. -/
def fullWorld : World :=
  ⟨heapOf [[⟨"env", "prod"⟩, ⟨"app", "shop"⟩]] doubling, [], [], [], []⟩

/-- A configuration whose attribute slice has length 2 and capacity 2 in the
array of `fullWorld`: no spare cell. -/
def fullConf (poolName : String) : config :=
  ⟨some okMeter, fun _ => okMeter, ⟨0, 2, 2⟩, poolName, 0⟩

/-- A configuration whose attribute slice is empty with no capacity. -/
def plainConf (m : Meter) (poolName : String) : config :=
  ⟨some m, fun _ => okMeter, ⟨0, 0, 0⟩, poolName, 0⟩

/-- A world with an empty heap. -/
def emptyWorld : World := ⟨heapOf [] doubling, [], [], [], []⟩

/-- Two nodes with distinct addresses. -/
def nodeA : Client := ⟨⟨"10.0.0.1:6379", 10, 2⟩⟩

/-- The second node. -/
def nodeB : Client := ⟨⟨"10.0.0.2:6379", 10, 2⟩⟩

/-- A hook world with one backing array holding `pool.name=a`. -/
def hookWorld : HookWorld := ⟨heapOf [[⟨"pool.name", "a"⟩]] doubling, [], []⟩

/-- A hook over the array of `hookWorld` with a threshold of one second. -/
def hookEx : metricsHook := ⟨"db.client.connections.use_time", ⟨0, 1, 1⟩, 1000000000⟩

/-! ## Slice lemmas -/

/-- The labels the hook builds: a fresh slice of capacity `len + 2` filled with
the hook attributes, the type label and the status label reads back as exactly
that list. -/
theorem hook_labels_read (h : Heap) (s : Slice) (hs : s.arr < h.next) (t st : KeyValue) :
    let p0 := goMake h (s.len + 2)
    let p1 := goAppend p0.1 p0.2 (p0.1.read s)
    let p2 := goAppend p1.1 p1.2 [t]
    let p3 := goAppend p2.1 p2.2 [st]
    p3.1.read p3.2 = h.read s ++ [t, st] := by
  have hne : s.arr ≠ h.next := Nat.ne_of_lt hs
  apply List.ext_getElem
  · simp [goMake, goAppend, Heap.read]
  · intro i h1 h2
    simp [goMake, goAppend, Heap.read] at h1 h2 ⊢
    rcases Nat.lt_or_ge i s.len with hi | hi
    · have h3 : ¬ (s.len + 1 ≤ i) := by omega
      have h4 : ¬ (s.len ≤ i) := by omega
      simp [h3, h4, hi, hne, List.getElem_append_left, List.getElem?_range]
    · have h5 : i = s.len ∨ i = s.len + 1 := by omega
      rcases h5 with h5 | h5
      · subst h5
        simp [List.getElem_append_right]
      · subst h5
        simp [List.getElem_append_right]

/-- With a start time in the context `AfterProcess` returns nil, appends the
error entry and the slow entry to the log and records one observation. -/
theorem AfterProcess_some (mh : metricsHook) (since : Int → Int) (w : HookWorld)
    (start : Int) (cmd : Cmder) :
    ∃ w', AfterProcess mh since w (some start) cmd = .ok (w', none) ∧
      w'.logs = w.logs ++ errorEntries "Command error" cmd
        ++ slowEntries "Command slow" (since start) mh.slowDuration cmd ∧
      (mh.attrs.arr < w.heap.next →
        w'.records = w.records ++ [⟨mh.useTime, durMilliseconds (since start),
          w.heap.read mh.attrs ++
            [attributeString "type" "command", (statusOkAttr cmd.err).1]⟩]) := by
  simp only [AfterProcess]
  refine ⟨_, rfl, ?_, ?_⟩
  · simp only [errorEntries, slowEntries]
    cases (statusOkAttr cmd.err).2 <;> by_cases hd : since start ≥ mh.slowDuration <;> simp [hd]
  · intro hv
    have := hook_labels_read w.heap mh.attrs hv (attributeString "type" "command")
      (statusOkAttr cmd.err).1
    simp only at this
    simp only [this]

/-- With a start time in the context and a non-empty batch,
`AfterProcessPipeline` returns nil, appends the error entry and the slow entry of
the first command to the log and records one observation. -/
theorem AfterProcessPipeline_cons (mh : metricsHook) (since : Int → Int) (w : HookWorld)
    (start : Int) (first : Cmder) (rest : List Cmder) :
    ∃ w', AfterProcessPipeline mh since w (some start) (first :: rest) = .ok (w', none) ∧
      w'.logs = w.logs ++ errorEntries "Pipeline error" first
        ++ slowEntries "Pipeline slow" (since start) mh.slowDuration first ∧
      (mh.attrs.arr < w.heap.next →
        w'.records = w.records ++ [⟨mh.useTime, durMilliseconds (since start),
          w.heap.read mh.attrs ++
            [attributeString "type" "pipeline", (statusOkAttr first.err).1]⟩]) := by
  simp only [AfterProcessPipeline, List.getElem?_cons_zero]
  refine ⟨_, rfl, ?_, ?_⟩
  · simp only [errorEntries, slowEntries]
    cases (statusOkAttr first.err).2 <;> by_cases hd : since start ≥ mh.slowDuration <;> simp [hd]
  · intro hv
    have := hook_labels_read w.heap mh.attrs hv (attributeString "type" "pipeline")
      (statusOkAttr first.err).1
    simp only at this
    simp only [this]

/-- The value of `statusOkAttr` by cases on the error. -/
theorem statusOkAttr_eq (err : Option GoError) :
    statusOkAttr err =
      if err = none ∨ err = some GoError.redisNil then (attributeString "status" "ok", true)
      else (attributeString "status" "error", false) := by
  unfold statusOkAttr
  by_cases h1 : err = none
  · simp [h1]
  · by_cases h2 : err = some GoError.redisNil
    · simp [h2]
    · simp [h1, h2]

/-- Counting a level in the log after the hook appended its entries. -/
theorem countLevel_hook (l : Level) (logs : List LogEntry) (emsg smsg : String)
    (dur slow : Int) (cmd : Cmder) :
    countLevel l (logs ++ errorEntries emsg cmd ++ slowEntries smsg dur slow cmd) =
      countLevel l logs
        + (if l = Level.error ∧ ¬ (cmd.err = none ∨ cmd.err = some GoError.redisNil) then 1 else 0)
        + (if l = Level.warn ∧ dur ≥ slow then 1 else 0) := by
  simp only [countLevel, errorEntries, slowEntries, statusOkAttr_eq, List.filter_append,
    List.length_append]
  by_cases h1 : cmd.err = none ∨ cmd.err = some GoError.redisNil <;>
    by_cases h2 : dur ≥ slow <;> cases l <;> simp [h1, h2]

/-! ## The command hook: status, latency and logs -/

/-- C1: with a start time in the context, `AfterProcess` returns nil and records
one latency observation labelled with the hook attributes, `type=command` and
`status=ok` when the command error is nil or `redis.Nil`, `status=error` for
every other error; the number of error-level log entries grows by one when the
status is error and by none when it is ok; and `statusOkAttr` returns
`(status=error, false)` exactly when the error is neither nil nor `redis.Nil`. -/
theorem AfterProcess_status (mh : metricsHook) (since : Int → Int) (w : HookWorld)
    (start : Int) (cmd : Cmder) (hv : mh.attrs.arr < w.heap.next) :
    ∃ w', AfterProcess mh since w (some start) cmd = .ok (w', none) ∧
      w'.records = w.records ++ [⟨mh.useTime, durMilliseconds (since start),
        w.heap.read mh.attrs ++
          [attributeString "type" "command",
           attributeString "status"
             (if cmd.err = none ∨ cmd.err = some GoError.redisNil then "ok" else "error")]⟩] ∧
      countLevel Level.error w'.logs = countLevel Level.error w.logs +
        (if cmd.err = none ∨ cmd.err = some GoError.redisNil then 0 else 1) ∧
      (statusOkAttr cmd.err = (attributeString "status" "error", false) ↔
        (cmd.err ≠ none ∧ cmd.err ≠ some GoError.redisNil)) := by
  obtain ⟨w', hres, hlogs, hrec⟩ := AfterProcess_some mh since w start cmd
  refine ⟨w', hres, ?_, ?_, ?_⟩
  · rw [hrec hv, statusOkAttr_eq]
    by_cases h : cmd.err = none ∨ cmd.err = some GoError.redisNil <;> simp [h]
  · rw [hlogs, countLevel_hook]
    by_cases h : cmd.err = none ∨ cmd.err = some GoError.redisNil <;> simp [h]
  · rw [statusOkAttr_eq]
    by_cases h : cmd.err = none ∨ cmd.err = some GoError.redisNil
    · simp only [h, if_true]
      constructor
      · intro hc
        exact absurd hc (by decide)
      · intro hc
        rcases h with h | h
        · exact absurd h hc.1
        · exact absurd h hc.2
    · simp only [h, if_false, true_iff]
      exact ⟨fun hc => h (Or.inl hc), fun hc => h (Or.inr hc)⟩

/-- Witness of `AfterProcess_status`: a failed `get k` on the example hook. -/
theorem AfterProcess_status_witness :
    hookEx.attrs.arr < hookWorld.heap.next ∧
    ∃ w', AfterProcess hookEx (fun _ => 5000000) hookWorld (some 0)
        ⟨some (GoError.other "timeout"), "get k"⟩ = .ok (w', none) ∧
      w'.records = hookWorld.records ++ [⟨hookEx.useTime, durMilliseconds 5000000,
        hookWorld.heap.read hookEx.attrs ++
          [attributeString "type" "command",
           attributeString "status"
             (if (some (GoError.other "timeout") : Option GoError) = none ∨
                 (some (GoError.other "timeout") : Option GoError) = some GoError.redisNil
              then "ok" else "error")]⟩] ∧
      countLevel Level.error w'.logs = countLevel Level.error hookWorld.logs +
        (if (some (GoError.other "timeout") : Option GoError) = none ∨
            (some (GoError.other "timeout") : Option GoError) = some GoError.redisNil
         then 0 else 1) ∧
      (statusOkAttr (some (GoError.other "timeout")) = (attributeString "status" "error", false) ↔
        ((some (GoError.other "timeout") : Option GoError) ≠ none ∧
          (some (GoError.other "timeout") : Option GoError) ≠ some GoError.redisNil)) :=
  ⟨by decide,
   AfterProcess_status hookEx (fun _ => 5000000) hookWorld 0
     ⟨some (GoError.other "timeout"), "get k"⟩ (by decide)⟩

/-- C4: with a start time in the context and a non-empty batch,
`AfterProcessPipeline` returns nil and records exactly one observation, labelled
with the hook attributes followed by `type=pipeline` and a status that is error
exactly when the error of the first command is neither nil nor `redis.Nil`,
whatever the other commands are; the log grows by the error entry (when the
status is error) and the slow entry (when the duration reaches the threshold),
both carrying the text of the first command. -/
theorem AfterProcessPipeline_first_command (mh : metricsHook) (since : Int → Int)
    (w : HookWorld) (start : Int) (first : Cmder) (rest : List Cmder)
    (hv : mh.attrs.arr < w.heap.next) :
    ∃ w', AfterProcessPipeline mh since w (some start) (first :: rest) = .ok (w', none) ∧
      w'.records = w.records ++ [⟨mh.useTime, durMilliseconds (since start),
        w.heap.read mh.attrs ++
          [attributeString "type" "pipeline",
           attributeString "status"
             (if first.err ≠ none ∧ first.err ≠ some GoError.redisNil then "error" else "ok")]⟩] ∧
      w'.logs = w.logs ++
        (if first.err ≠ none ∧ first.err ≠ some GoError.redisNil then
          [⟨Level.error, "Pipeline error", [Field.string "cmd" first.text]⟩] else []) ++
        (if since start ≥ mh.slowDuration then
          [⟨Level.warn, "Pipeline slow",
            [Field.duration "dur" (since start), Field.string "cmd" first.text]⟩] else []) := by
  obtain ⟨w', hres, hlogs, hrec⟩ := AfterProcessPipeline_cons mh since w start first rest
  refine ⟨w', hres, ?_, ?_⟩
  · rw [hrec hv]
    unfold statusOkAttr
    by_cases h : first.err ≠ none ∧ first.err ≠ some GoError.redisNil <;> simp [h]
  · rw [hlogs]
    unfold errorEntries slowEntries statusOkAttr
    by_cases h : first.err ≠ none ∧ first.err ≠ some GoError.redisNil <;> simp [h]

/-- Witness of `AfterProcessPipeline_first_command`: a batch of three commands
whose first fails and whose others succeed is recorded once with `status=error`. -/
theorem AfterProcessPipeline_first_command_witness :
    hookEx.attrs.arr < hookWorld.heap.next ∧
    ∃ w', AfterProcessPipeline hookEx (fun _ => 5000000) hookWorld (some 0)
        (⟨some (GoError.other "timeout"), "get k"⟩ :: [⟨none, "set a 1"⟩, ⟨none, "set b 2"⟩])
          = .ok (w', none) ∧
      w'.records = hookWorld.records ++ [⟨hookEx.useTime, durMilliseconds 5000000,
        hookWorld.heap.read hookEx.attrs ++
          [attributeString "type" "pipeline", attributeString "status" "error"]⟩] ∧
      w'.logs = hookWorld.logs ++
        [⟨Level.error, "Pipeline error", [Field.string "cmd" "get k"]⟩] ++ [] := by
  refine ⟨by decide, ?_⟩
  obtain ⟨w', h1, h2, h3⟩ := AfterProcessPipeline_first_command hookEx (fun _ => 5000000)
    hookWorld 0 ⟨some (GoError.other "timeout"), "get k"⟩ [⟨none, "set a 1"⟩, ⟨none, "set b 2"⟩]
    (by decide)
  exact ⟨w', h1, h2, h3⟩

/-- Where the slow warning is emitted: with a start time in the context, for
every elapsed duration (the value of `time.Since`) and every slow threshold,
`AfterProcess` and, on a batch that has a first command, `AfterProcessPipeline`
return nil and add exactly one warning-level log entry when the duration is at
least the threshold and none when it is below, whatever the error of the
command is. -/
theorem slow_warning_count (mh : metricsHook) (since : Int → Int) (w : HookWorld)
    (start : Int) (cmd : Cmder) (rest : List Cmder) :
    (∃ w', AfterProcess mh since w (some start) cmd = .ok (w', none) ∧
      countLevel Level.warn w'.logs = countLevel Level.warn w.logs +
        (if since start ≥ mh.slowDuration then 1 else 0)) ∧
    (∃ w', AfterProcessPipeline mh since w (some start) (cmd :: rest) = .ok (w', none) ∧
      countLevel Level.warn w'.logs = countLevel Level.warn w.logs +
        (if since start ≥ mh.slowDuration then 1 else 0)) := by
  constructor
  · obtain ⟨w', hres, hlogs, _⟩ := AfterProcess_some mh since w start cmd
    refine ⟨w', hres, ?_⟩
    rw [hlogs, countLevel_hook]
    simp
  · obtain ⟨w', hres, hlogs, _⟩ := AfterProcessPipeline_cons mh since w start cmd rest
    refine ⟨w', hres, ?_⟩
    rw [hlogs, countLevel_hook]
    simp

/-! ## The pool-stats callback -/

/-- C2 (code evaluated at the failing input): with a configuration attribute
slice of length 3 and capacity 4, the two appends of `reportPoolStats` write the
same spare cell, and the callback then observes both usage values, the idle
count 1 and the used count 3 - 1, under the labels of the configuration followed
by `state=used`: no usage observation carries `state=idle`. The same happens
through `InstrumentMetrics` on a single client whose two attributes fill their
array, once the append of `pool.name` has doubled the capacity. -/
theorem reportPoolStats_usage_labels_shared :
    (match reportPoolStats nodeA (spareConf "") spareWorld with
      | .ok (w, none) =>
        w.callbacks.map
          (fun r => usageObservations (r.callback.run w.heap ⟨1, 3, 0⟩))
      | _ => []) =
      [[((1 : Int), [⟨"env", "prod"⟩, ⟨"app", "shop"⟩, ⟨"region", "eu"⟩, ⟨"state", "used"⟩]),
        ((2 : Int), [⟨"env", "prod"⟩, ⟨"app", "shop"⟩, ⟨"region", "eu"⟩, ⟨"state", "used"⟩])]] ∧
    (match InstrumentMetrics (.client nodeA) (fullConf "") fullWorld with
      | .ok (w, none) =>
        w.callbacks.map
          (fun r => usageObservations (r.callback.run w.heap ⟨1, 3, 0⟩))
      | _ => []) =
      [[((1 : Int), [⟨"env", "prod"⟩, ⟨"app", "shop"⟩, ⟨"pool.name", "10.0.0.1:6379"⟩,
          ⟨"state", "used"⟩]),
        ((2 : Int), [⟨"env", "prod"⟩, ⟨"app", "shop"⟩, ⟨"pool.name", "10.0.0.1:6379"⟩,
          ⟨"state", "used"⟩])]] := by
  decide

/-- C3 (counterexample): for the snapshot `IdleConns = 1`, `TotalConns = 0` the
two usage values are `1` and `4294967295` (the `uint32` subtraction wraps), whose
sum `4294967296` is not `TotalConns`. -/
theorem usage_sum_wraps :
    (usageObservations
        ((⟨⟨0, 0, 0⟩, ⟨0, 0, 0⟩, ⟨0, 0, 0⟩, nodeA.opt⟩ : PoolCallback).run
          emptyWorld.heap ⟨1, 0, 0⟩)).map Prod.fst = [(1 : Int), 4294967295] ∧
    ((usageObservations
        ((⟨⟨0, 0, 0⟩, ⟨0, 0, 0⟩, ⟨0, 0, 0⟩, nodeA.opt⟩ : PoolCallback).run
          emptyWorld.heap ⟨1, 0, 0⟩)).map Prod.fst).sum ≠
      (((⟨1, 0, 0⟩ : PoolStats).TotalConns : Nat) : Int) := by
  decide

/-- C3 (amended): for every snapshot of `uint32` counters with
`IdleConns ≤ TotalConns`, every callback and every heap, the values observed on
the usage instrument are `IdleConns` and `TotalConns - IdleConns`, in this
order, and they sum to `TotalConns`. -/
theorem usage_sum_eq_total (cb : PoolCallback) (h : Heap) (stats : PoolStats)
    (hle : stats.IdleConns ≤ stats.TotalConns) (ht : stats.TotalConns < 4294967296) :
    (usageObservations (cb.run h stats)).map Prod.fst =
        [(stats.IdleConns : Int), ((stats.TotalConns - stats.IdleConns : Nat) : Int)] ∧
    ((usageObservations (cb.run h stats)).map Prod.fst).sum = (stats.TotalConns : Int) := by
  have hsub : uint32Sub stats.TotalConns stats.IdleConns = stats.TotalConns - stats.IdleConns := by
    unfold uint32Sub
    omega
  have hobs : (usageObservations (cb.run h stats)).map Prod.fst =
      [(stats.IdleConns : Int), ((stats.TotalConns - stats.IdleConns : Nat) : Int)] := by
    simp [usageObservations, PoolCallback.run, hsub]
  refine ⟨hobs, ?_⟩
  rw [hobs]
  simp only [List.sum_cons, List.sum_nil]
  omega

/-- Witness of `usage_sum_eq_total`: one idle connection out of three. -/
theorem usage_sum_eq_total_witness :
    (1 ≤ 3 ∧ 3 < 4294967296) ∧
    ((usageObservations
        ((⟨⟨0, 0, 0⟩, ⟨0, 0, 0⟩, ⟨0, 0, 0⟩, nodeA.opt⟩ : PoolCallback).run
          emptyWorld.heap ⟨1, 3, 0⟩)).map Prod.fst =
        [((1 : Nat) : Int), ((3 - 1 : Nat) : Int)] ∧
     ((usageObservations
        ((⟨⟨0, 0, 0⟩, ⟨0, 0, 0⟩, ⟨0, 0, 0⟩, nodeA.opt⟩ : PoolCallback).run
          emptyWorld.heap ⟨1, 3, 0⟩)).map Prod.fst).sum = ((3 : Nat) : Int)) :=
  ⟨by decide,
   usage_sum_eq_total ⟨⟨0, 0, 0⟩, ⟨0, 0, 0⟩, ⟨0, 0, 0⟩, nodeA.opt⟩ emptyWorld.heap ⟨1, 3, 0⟩
     (by decide) (by decide)⟩

/-- C10 (code evaluated): for every callback, heap and snapshot, no observation
of the callback is made on `db.client.connections.idle.max`; its five
observations are on idle.min, max, usage (twice) and timeouts. -/
theorem callback_never_observes_idleMax (cb : PoolCallback) (h : Heap) (stats : PoolStats) :
    (cb.run h stats).filter (fun o => o.instrument = "db.client.connections.idle.max") = [] ∧
    (cb.run h stats).map (fun o => o.instrument) =
      [ "db.client.connections.idle.min", "db.client.connections.max",
        "db.client.connections.usage", "db.client.connections.usage",
        "db.client.connections.timeouts" ] := by
  constructor
  · simp [PoolCallback.run]
  · simp [PoolCallback.run]

/-! ## The command hook: panics -/

/-- C9 (code evaluated at the failing input): with a start time in the context
and an empty batch, `AfterProcessPipeline` panics at `cmds[0]` with an index out
of range, for every hook, clock and world. -/
theorem AfterProcessPipeline_empty_panics (mh : metricsHook) (since : Int → Int)
    (w : HookWorld) (start : Int) :
    AfterProcessPipeline mh since w (some start) [] =
      .error (Panic.indexOutOfRange 0 0) := by
  rfl

/-- C5 (code evaluated at the failing input): with a start time in the context,
an elapsed duration of two seconds and a slow threshold of one second,
`AfterProcessPipeline` on the empty batch panics at `cmds[0]`, before the
statement that logs the slow warning: it does not return, so no result of it
carries the one warning-level entry the duration calls for, while `AfterProcess`
with the same hook and duration returns with exactly one. -/
theorem slow_warning_lost_on_empty_batch :
    (2000000000 : Int) ≥ hookEx.slowDuration ∧
    AfterProcessPipeline hookEx (fun _ => 2000000000) hookWorld (some 0) [] =
      .error (Panic.indexOutOfRange 0 0) ∧
    (¬ ∃ w', AfterProcessPipeline hookEx (fun _ => 2000000000) hookWorld (some 0) [] =
        .ok (w', none) ∧
      countLevel Level.warn w'.logs = countLevel Level.warn hookWorld.logs + 1) ∧
    (match AfterProcess hookEx (fun _ => 2000000000) hookWorld (some 0) ⟨none, "get k"⟩ with
      | .ok (w', _) => some (countLevel Level.warn w'.logs)
      | .error _ => none) = some 1 := by
  refine ⟨by decide, rfl, ?_, by decide⟩
  rintro ⟨w', hres, _⟩
  have hpanic : AfterProcessPipeline hookEx (fun _ => 2000000000) hookWorld (some 0) [] =
      .error (Panic.indexOutOfRange 0 0) := rfl
  rw [hpanic] at hres
  cases hres

/-! ## The fanout over cluster masters and ring shards -/

/-- Reading back a slice after one `append`: the old elements then the value. -/
theorem read_goAppend_one (h : Heap) (s : Slice) (x : KeyValue) :
    (goAppend h s [x]).1.read (goAppend h s [x]).2 = h.read s ++ [x] := by
  apply List.ext_getElem
  · unfold goAppend
    split <;> simp [Heap.read]
  · intro i h1 h2
    have hi : i < s.len + 1 := by
      simpa [Heap.read] using h2
    unfold goAppend
    split
    · rcases Nat.lt_or_ge i s.len with hlt | hge
      · have h3 : ¬ (s.len ≤ i) := by omega
        simp [Heap.read, h3, hlt, List.getElem_append_left]
      · have h4 : i = s.len := by omega
        subst h4
        simp [Heap.read, List.getElem_append_right]
    · rcases Nat.lt_or_ge i s.len with hlt | hge
      · simp [Heap.read, hlt, List.getElem_append_left]
      · have h4 : i = s.len := by omega
        subst h4
        simp [Heap.read, List.getElem_append_right]

/-- Two appends to the same slice with a spare cell write the same cell: both
results then read as the old elements followed by the second value. -/
theorem goAppend_twice_spare (h : Heap) (s : Slice) (x y : KeyValue) (hs : s.len < s.cap) :
    (goAppend (goAppend h s [x]).1 s [y]).1.read (goAppend h s [x]).2 = h.read s ++ [y] ∧
    (goAppend (goAppend h s [x]).1 s [y]).1.read (goAppend (goAppend h s [x]).1 s [y]).2 =
      h.read s ++ [y] := by
  have hle : s.len + 1 ≤ s.cap := hs
  have hsnd : (goAppend (goAppend h s [x]).1 s [y]).2 = (goAppend h s [x]).2 := by
    simp [goAppend, hle]
  have hfst : (goAppend (goAppend h s [x]).1 s [y]).1.read (goAppend h s [x]).2 =
      h.read s ++ [y] := by
    apply List.ext_getElem
    · simp [goAppend, hle, Heap.read]
    · intro i h1 h2
      have hi : i < s.len + 1 := by
        simpa [Heap.read] using h2
      rcases Nat.lt_or_ge i s.len with hlt | hge
      · have h3 : ¬ (s.len ≤ i) := by omega
        simp [goAppend, hle, Heap.read, h3, hlt, List.getElem_append_left]
      · have h4 : i = s.len := by omega
        subst h4
        simp [goAppend, hle, Heap.read, List.getElem_append_right]
  refine ⟨hfst, ?_⟩
  rw [hsnd]
  exact hfst

/-- Two appends to the same full slice allocate two arrays: each result reads
as the old elements followed by its own value. -/
theorem goAppend_twice_full (h : Heap) (s : Slice) (x y : KeyValue)
    (hv : s.arr < h.next) (hs : s.cap ≤ s.len) :
    (goAppend (goAppend h s [x]).1 s [y]).1.read (goAppend h s [x]).2 = h.read s ++ [x] ∧
    (goAppend (goAppend h s [x]).1 s [y]).1.read (goAppend (goAppend h s [x]).1 s [y]).2 =
      h.read s ++ [y] := by
  have hnle : ¬ (s.len + 1 ≤ s.cap) := by omega
  have hne : s.arr ≠ h.next := Nat.ne_of_lt hv
  constructor
  · apply List.ext_getElem
    · simp [goAppend, hnle, Heap.read]
    · intro i h1 h2
      have hi : i < s.len + 1 := by
        simpa [Heap.read] using h2
      rcases Nat.lt_or_ge i s.len with hlt | hge
      · simp [goAppend, hnle, Heap.read, hlt, List.getElem_append_left]
      · have h4 : i = s.len := by omega
        subst h4
        simp [goAppend, hnle, Heap.read, List.getElem_append_right]
  · rw [read_goAppend_one]
    congr 1
    apply List.ext_getElem
    · simp [Heap.read]
    · intro i h1 h2
      simp [goAppend, hnle, Heap.read, hne]

/-- C6 (counterexample): with the explicit pool name `main` configured, the
fanout over two masters with distinct addresses gives both hooks the label
`pool.name=main`, not their addresses. -/
theorem fanout_explicit_pool_name :
    (match InstrumentMetrics (.cluster [nodeA, nodeB]) (plainConf okMeter "main") emptyWorld with
      | .ok (w, none) => w.hooks.map (fun x => (x.1.opt.Addr, w.heap.read x.2.attrs))
      | _ => []) =
    [("10.0.0.1:6379", [⟨"pool.name", "main"⟩]), ("10.0.0.2:6379", [⟨"pool.name", "main"⟩])] := by
  decide

/-- C6 (amended): in the function literal of the cluster and ring cases, the
attribute slice of the configuration copy of a node reads, right after the
append, as the base attributes followed by `pool.name`, whose value is the
address of the node when no pool name is configured and the configured pool
name otherwise; so with no pool name configured, two nodes with different
addresses get different `pool.name` attributes appended. -/
theorem nodeConfig_pool_name (conf : config) (rdb : Client) (w : World) :
    (nodeConfig conf rdb w).1.heap.read (nodeConfig conf rdb w).2.attrs =
      w.heap.read conf.attrs ++
        [attributeString "pool.name"
          (if conf.poolName = "" then rdb.opt.Addr else conf.poolName)] ∧
    (conf.poolName = "" → ∀ (rdb2 : Client) (w2 : World), rdb.opt.Addr ≠ rdb2.opt.Addr →
      ((nodeConfig conf rdb w).1.heap.read (nodeConfig conf rdb w).2.attrs).getLast? =
          some (attributeString "pool.name" rdb.opt.Addr) ∧
      ((nodeConfig conf rdb2 w2).1.heap.read (nodeConfig conf rdb2 w2).2.attrs).getLast? =
          some (attributeString "pool.name" rdb2.opt.Addr) ∧
      attributeString "pool.name" rdb.opt.Addr ≠ attributeString "pool.name" rdb2.opt.Addr) := by
  have key : ∀ (c : Client) (v : World),
      (nodeConfig conf c v).1.heap.read (nodeConfig conf c v).2.attrs =
        v.heap.read conf.attrs ++
          [attributeString "pool.name"
            (if conf.poolName = "" then c.opt.Addr else conf.poolName)] := by
    intro c v
    unfold nodeConfig
    by_cases hp : conf.poolName = ""
    · simp only [hp, if_true]
      exact read_goAppend_one _ _ _
    · simp only [hp, if_false]
      exact read_goAppend_one _ _ _
  refine ⟨key rdb w, ?_⟩
  intro hp rdb2 w2 hne
  refine ⟨?_, ?_, ?_⟩
  · rw [key rdb w]
    simp [hp]
  · rw [key rdb2 w2]
    simp [hp]
  · intro heq
    apply hne
    simpa [attributeString] using heq

/-- Witness of `nodeConfig_pool_name`: no pool name configured, nodes A and B. -/
theorem nodeConfig_pool_name_witness :
    (plainConf okMeter "").poolName = "" ∧ nodeA.opt.Addr ≠ nodeB.opt.Addr ∧
    ((nodeConfig (plainConf okMeter "") nodeA emptyWorld).1.heap.read
        (nodeConfig (plainConf okMeter "") nodeA emptyWorld).2.attrs).getLast? =
      some (attributeString "pool.name" "10.0.0.1:6379") ∧
    ((nodeConfig (plainConf okMeter "") nodeB emptyWorld).1.heap.read
        (nodeConfig (plainConf okMeter "") nodeB emptyWorld).2.attrs).getLast? =
      some (attributeString "pool.name" "10.0.0.2:6379") :=
  ⟨by decide, by decide,
   ((nodeConfig_pool_name (plainConf okMeter "") nodeA emptyWorld).2 (by decide)
      nodeB emptyWorld (by decide)).1,
   ((nodeConfig_pool_name (plainConf okMeter "") nodeA emptyWorld).2 (by decide)
      nodeB emptyWorld (by decide)).2.1⟩

/-- C7 (code evaluated at the failing input): with a base attribute slice of
length 3 and capacity 4 and no pool name configured, the hook of the first
master reads `pool.name=10.0.0.1:6379` right after the first master is
instrumented, and reads `pool.name=10.0.0.2:6379` once the second master has
been instrumented: the append for the second node overwrote the cell both
slices share. The labels of the pool-stats callback of the first shard of a
ring change in the same way. -/
theorem fanout_overwrites_sibling_labels :
    (match InstrumentMetrics (.cluster [nodeA]) (spareConf "") spareWorld with
      | .ok (w, none) => w.hooks.map (fun x => (x.1.opt.Addr, w.heap.read x.2.attrs))
      | _ => []) =
      [("10.0.0.1:6379",
        [⟨"env", "prod"⟩, ⟨"app", "shop"⟩, ⟨"region", "eu"⟩, ⟨"pool.name", "10.0.0.1:6379"⟩])] ∧
    (match InstrumentMetrics (.cluster [nodeA, nodeB]) (spareConf "") spareWorld with
      | .ok (w, none) => w.hooks.map (fun x => (x.1.opt.Addr, w.heap.read x.2.attrs))
      | _ => []) =
      [("10.0.0.1:6379",
        [⟨"env", "prod"⟩, ⟨"app", "shop"⟩, ⟨"region", "eu"⟩, ⟨"pool.name", "10.0.0.2:6379"⟩]),
       ("10.0.0.2:6379",
        [⟨"env", "prod"⟩, ⟨"app", "shop"⟩, ⟨"region", "eu"⟩, ⟨"pool.name", "10.0.0.2:6379"⟩])] ∧
    (match InstrumentMetrics (.ring [nodeA, nodeB]) (spareConf "") spareWorld with
      | .ok (w, none) =>
        w.callbacks.map (fun r => (r.rdb.opt.Addr, w.heap.read r.callback.labels))
      | _ => []) =
      [("10.0.0.1:6379",
        [⟨"env", "prod"⟩, ⟨"app", "shop"⟩, ⟨"region", "eu"⟩, ⟨"pool.name", "10.0.0.2:6379"⟩]),
       ("10.0.0.2:6379",
        [⟨"env", "prod"⟩, ⟨"app", "shop"⟩, ⟨"region", "eu"⟩, ⟨"pool.name", "10.0.0.2:6379"⟩])] := by
  decide

/-- The call `RegisterCallback` leaves the handled errors and the hooks as they
were and creates no histogram. -/
theorem registerCallback_fields (m : Meter) (w : World) (r : Registration) :
    (registerCallback m w r).1.handled = w.handled ∧
    (registerCallback m w r).1.hooks = w.hooks ∧
    (registerCallback m w r).1.meterCalls.count "db.client.connections.use_time" =
      w.meterCalls.count "db.client.connections.use_time" := by
  unfold registerCallback
  split <;> simp

/-- The shape of the result of `reportPoolStats` when the meter is set: it
returns, leaves the handled errors and the hooks as they were and makes no call
creating the `use_time` histogram. -/
theorem reportPoolStats_ok (rdb : Client) (conf : config) (m : Meter) (w : World)
    (hm : conf.meter = some m) :
    ∃ w1 e1, reportPoolStats rdb conf w = .ok (w1, e1) ∧ w1.handled = w.handled ∧
      w1.hooks = w.hooks ∧
      w1.meterCalls.count "db.client.connections.use_time" =
        w.meterCalls.count "db.client.connections.use_time" := by
  unfold reportPoolStats
  simp only [hm]
  split
  · refine ⟨_, _, rfl, ?_, ?_, ?_⟩ <;> simp [newUpDownCounter]
  split
  · refine ⟨_, _, rfl, ?_, ?_, ?_⟩ <;> simp [newUpDownCounter]
  split
  · refine ⟨_, _, rfl, ?_, ?_, ?_⟩ <;> simp [newUpDownCounter]
  split
  · refine ⟨_, _, rfl, ?_, ?_, ?_⟩ <;> simp [newUpDownCounter]
  split
  · refine ⟨_, _, rfl, ?_, ?_, ?_⟩ <;> simp [newUpDownCounter]
  refine ⟨(registerCallback m _ _).1, (registerCallback m _ _).2, rfl, ?_, ?_, ?_⟩
  · rw [(registerCallback_fields m _ _).1]
    simp [newUpDownCounter]
  · rw [(registerCallback_fields m _ _).2.1]
    simp [newUpDownCounter]
  · rw [(registerCallback_fields m _ _).2.2]
    simp [newUpDownCounter]

/-- The shape of the result of `addMetricsHook` when the meter is set: it
returns, leaves the handled errors as they were and makes exactly one call on
the meter, the creation of the `use_time` histogram. -/
theorem addMetricsHook_ok (rdb : Client) (conf : config) (m : Meter) (w : World)
    (hm : conf.meter = some m) :
    ∃ w2 e2, addMetricsHook rdb conf w = .ok (w2, e2) ∧ w2.handled = w.handled ∧
      w2.meterCalls = w.meterCalls ++ ["db.client.connections.use_time"] ∧
      (e2 = none → w2.hooks = w.hooks ++
        [(rdb, ⟨"db.client.connections.use_time", conf.attrs, conf.slowDur⟩)]) := by
  unfold addMetricsHook
  simp only [hm]
  split
  · refine ⟨_, _, rfl, ?_, ?_, ?_⟩ <;> simp [newHistogram]
  · refine ⟨_, _, rfl, ?_, ?_, ?_⟩ <;> simp [newHistogram]

/-- Handling an error keeps the meter calls and appends the error, if any. -/
theorem handleIfErr_fields (w : World) (e : Option GoError) :
    (handleIfErr w e).handled = w.handled ++ e.toList ∧
    (handleIfErr w e).meterCalls = w.meterCalls ∧
    (handleIfErr w e).hooks = w.hooks := by
  cases e <;> simp [handleIfErr]

/-- The configuration copy of a node keeps the meter of the configuration. -/
theorem nodeConfig_meter (conf : config) (rdb : Client) (w : World) :
    (nodeConfig conf rdb w).2.meter = conf.meter ∧
    (nodeConfig conf rdb w).1.handled = w.handled ∧
    (nodeConfig conf rdb w).1.meterCalls = w.meterCalls := by
  unfold nodeConfig
  by_cases hp : conf.poolName = "" <;> simp [hp]

/-- C8: in the cluster and ring cases, with the meter set as `InstrumentMetrics`
sets it, for every node and every outcome of the calls on the meter:
`reportPoolStats` returns some result `e1`, `addMetricsHook` is then run whatever
`e1` is and returns some result `e2`, its creation of the `use_time` histogram
being the last call on the meter; the function literal returns nil; and the
errors given to `otel.Handle` are the earlier ones followed by `e1` if it is an
error and by `e2` if it is an error, each once. -/
theorem fanoutFn_isolates_errors (conf : config) (m : Meter) (rdb : Client) (w : World)
    (hm : conf.meter = some m) :
    ∃ w1 e1 w2 e2,
      reportPoolStats rdb (nodeConfig conf rdb w).2 (nodeConfig conf rdb w).1 = .ok (w1, e1) ∧
      addMetricsHook rdb (nodeConfig conf rdb w).2 (handleIfErr w1 e1) = .ok (w2, e2) ∧
      w2.meterCalls = w1.meterCalls ++ ["db.client.connections.use_time"] ∧
      fanoutFn conf rdb w = .ok (handleIfErr w2 e2, none) ∧
      (handleIfErr w2 e2).handled = w.handled ++ e1.toList ++ e2.toList := by
  have hm2 : (nodeConfig conf rdb w).2.meter = some m := by
    rw [(nodeConfig_meter conf rdb w).1, hm]
  obtain ⟨w1, e1, h1, hh1, _, _⟩ :=
    reportPoolStats_ok rdb (nodeConfig conf rdb w).2 m (nodeConfig conf rdb w).1 hm2
  obtain ⟨w2, e2, h2, hh2, hc2, _⟩ :=
    addMetricsHook_ok rdb (nodeConfig conf rdb w).2 m (handleIfErr w1 e1) hm2
  refine ⟨w1, e1, w2, e2, h1, h2, ?_, ?_, ?_⟩
  · rw [hc2, (handleIfErr_fields w1 e1).2.1]
  · unfold fanoutFn
    simp only [h1, h2]
  · rw [(handleIfErr_fields w2 e2).1, hh2, (handleIfErr_fields w1 e1).1, hh1,
      (nodeConfig_meter conf rdb w).2.1]

/-- Witness of `fanoutFn_isolates_errors`: on a meter where every instrument
creation fails, both errors of node A are handled and nil is returned. -/
theorem fanoutFn_isolates_errors_witness :
    (plainConf failingMeter "").meter = some failingMeter ∧
    (match fanoutFn (plainConf failingMeter "") nodeA emptyWorld with
      | .ok (w, e) => (w.handled, w.meterCalls, e)
      | .error _ => ([], [], none)) =
      ([GoError.other "db.client.connections.idle.max",
        GoError.other "db.client.connections.use_time"],
       ["db.client.connections.idle.max", "db.client.connections.use_time"], none) ∧
    ∃ w1 e1 w2 e2,
      reportPoolStats nodeA (nodeConfig (plainConf failingMeter "") nodeA emptyWorld).2
        (nodeConfig (plainConf failingMeter "") nodeA emptyWorld).1 = .ok (w1, e1) ∧
      addMetricsHook nodeA (nodeConfig (plainConf failingMeter "") nodeA emptyWorld).2
        (handleIfErr w1 e1) = .ok (w2, e2) ∧
      w2.meterCalls = w1.meterCalls ++ ["db.client.connections.use_time"] ∧
      fanoutFn (plainConf failingMeter "") nodeA emptyWorld = .ok (handleIfErr w2 e2, none) ∧
      (handleIfErr w2 e2).handled = emptyWorld.handled ++ e1.toList ++ e2.toList :=
  ⟨rfl, by decide,
   fanoutFn_isolates_errors (plainConf failingMeter "") failingMeter nodeA emptyWorld rfl⟩

/-- One run of the function literal returns nil and creates the `use_time`
histogram once. -/
theorem fanoutFn_attempts_hook (conf : config) (m : Meter) (rdb : Client) (w : World)
    (hm : conf.meter = some m) :
    ∃ w', fanoutFn conf rdb w = .ok (w', none) ∧
      w'.meterCalls.count "db.client.connections.use_time" =
        w.meterCalls.count "db.client.connections.use_time" + 1 := by
  have hm2 : (nodeConfig conf rdb w).2.meter = some m := by
    rw [(nodeConfig_meter conf rdb w).1, hm]
  obtain ⟨w1, e1, h1, _, _, hc1⟩ :=
    reportPoolStats_ok rdb (nodeConfig conf rdb w).2 m (nodeConfig conf rdb w).1 hm2
  obtain ⟨w2, e2, h2, _, hc2, _⟩ :=
    addMetricsHook_ok rdb (nodeConfig conf rdb w).2 m (handleIfErr w1 e1) hm2
  refine ⟨handleIfErr w2 e2, ?_, ?_⟩
  · unfold fanoutFn
    simp only [h1, h2]
  · rw [(handleIfErr_fields w2 e2).2.1, hc2, (handleIfErr_fields w1 e1).2.1,
      List.count_append, hc1, (nodeConfig_meter conf rdb w).2.2]
    simp

/-- The iteration over the nodes returns nil and runs the function literal on
every node: the `use_time` histogram is created once per node. -/
theorem forEachNode_fanoutFn (conf : config) (m : Meter) (hm : conf.meter = some m)
    (nodes : List Client) (w : World) :
    ∃ w', forEachNode (fanoutFn conf) nodes w = .ok (w', none) ∧
      w'.meterCalls.count "db.client.connections.use_time" =
        w.meterCalls.count "db.client.connections.use_time" + nodes.length := by
  induction nodes generalizing w with
  | nil => exact ⟨w, rfl, by simp⟩
  | cons c cs ih =>
    obtain ⟨w1, h1, hc1⟩ := fanoutFn_attempts_hook conf m c w hm
    obtain ⟨w2, h2, hc2⟩ := ih w1
    refine ⟨w2, ?_, ?_⟩
    · simp only [forEachNode, h1, h2]
      rfl
    · rw [hc2, hc1, List.length_cons]
      omega

/-- For every configuration, every list of masters or shards and every outcome of
the calls on the meter, `InstrumentMetrics` on a cluster client or a ring returns
nil after `addMetricsHook` has been attempted on every node. -/
theorem InstrumentMetrics_fanout_completes (conf : config) (nodes : List Client) (w : World) :
    (∃ w', InstrumentMetrics (.cluster nodes) conf w = .ok (w', none) ∧
      w'.meterCalls.count "db.client.connections.use_time" =
        w.meterCalls.count "db.client.connections.use_time" + nodes.length) ∧
    (∃ w', InstrumentMetrics (.ring nodes) conf w = .ok (w', none) ∧
      w'.meterCalls.count "db.client.connections.use_time" =
        w.meterCalls.count "db.client.connections.use_time" + nodes.length) := by
  have hslow : ∀ c : config,
      (if c.slowDur = 0 then { c with slowDur := 1000000000 } else c).meter = c.meter := by
    intro c
    split <;> rfl
  have hmeter : ∃ m,
      (if (if conf.meter.isNone then { conf with meter := some (conf.mp instrumName) }
            else conf).slowDur = 0 then
          { (if conf.meter.isNone then { conf with meter := some (conf.mp instrumName) }
              else conf) with slowDur := 1000000000 }
        else (if conf.meter.isNone then { conf with meter := some (conf.mp instrumName) }
              else conf)).meter = some m := by
    rw [hslow]
    cases hc : conf.meter with
    | none => exact ⟨conf.mp instrumName, by simp⟩
    | some m0 => exact ⟨m0, by simp [hc]⟩
  obtain ⟨m, hm⟩ := hmeter
  constructor
  · simp only [InstrumentMetrics]
    exact forEachNode_fanoutFn _ m hm nodes w
  · simp only [InstrumentMetrics]
    exact forEachNode_fanoutFn _ m hm nodes w

end Redisotel
